import Mathlib

/-!
Verification development for the S&P 500 synthetic market-data and sentiment
pipeline (`main.py`).  Pure fragments of the Python source are embedded as
executable Lean definitions; pseudorandom draws produced by numpy's globally
seeded generator are threaded explicitly as draw streams, so each generator
becomes a pure function of its configuration and its draw streams.  Machine
floats are modelled by exact rationals; the one place where IEEE special
values are semantically relevant (the RSI division by a zero average loss)
uses an explicit float-value type with `inf`/`nan`.
-/

/-! ## Calendar arithmetic

`pd.bdate_range(start, end, freq='B')` enumerates the weekday dates between
its bounds (no holiday calendar is installed).  Dates are embedded as day
numbers of the proleptic Gregorian calendar, via the standard civil-date
formula; day number 719468 is 1970-01-01, a Thursday, so a day number `n` is
a weekend day iff `n % 7` is 3 (Saturday) or 4 (Sunday). -/

/-- Day number of a Gregorian date (years ≥ 1), counted from the civil era
origin 0000-03-01.  `daysFromCivil 1970 1 1 = 719468`. -/
def daysFromCivil (y m d : Nat) : Nat :=
  let y' := if m ≤ 2 then y - 1 else y
  let era := y' / 400
  let yoe := y' % 400
  let mp := (m + 9) % 12
  let doy := (153 * mp + 2) / 5 + d - 1
  let doe := yoe * 365 + yoe / 4 - yoe / 100 + doy
  era * 146097 + doe

/-- A day number falls on Monday..Friday. -/
def isBusinessDay (n : Nat) : Bool :=
  n % 7 ≠ 3 && n % 7 ≠ 4

/-- The weekday day numbers from `s` to `e` inclusive, as produced by
`pd.bdate_range(start, end, freq='B')`. -/
def bdateRangeList (s e : Nat) : List Nat :=
  ((List.range (e + 1 - s)).map (fun k => s + k)).filter isBusinessDay

/-- The trading calendar of `_generate_full_scale_stock_data`: the business
days between the configured bounds, truncated to the first
`EXPECTED_TRADING_DAYS` entries when the range is longer than the target
(`if len(business_days) > Config.EXPECTED_TRADING_DAYS: business_days =
business_days[:Config.EXPECTED_TRADING_DAYS]`).  No padding branch exists. -/
def truncCalendar (s e expected : Nat) : List Nat :=
  let l := bdateRangeList s e
  if expected < l.length then l.take expected else l

namespace Config

/-- `Config.START_DATE = "2015-01-01"`, as a day number. -/
def START_DATE : Nat := daysFromCivil 2015 1 1

/-- `Config.END_DATE = "2024-12-31"`, as a day number. -/
def END_DATE : Nat := daysFromCivil 2024 12 31

/-- `Config.EXPECTED_TRADING_DAYS = 2518`. -/
def EXPECTED_TRADING_DAYS : Nat := 2518

/-- `Config.TARGET_STOCK_COUNT = 300`. -/
def TARGET_STOCK_COUNT : Nat := 300

/-- `Config.EXPECTED_NEWS_COUNT = 15000`. -/
def EXPECTED_NEWS_COUNT : Nat := 15000

end Config

/-! ## Numeric helpers -/

/-- Round a rational to the nearest integer, ties to even — the rounding mode
of Python's builtin `round`. -/
def roundHalfEven (q : ℚ) : ℤ :=
  let f := ⌊q⌋
  let r := q - (f : ℚ)
  if r < 1 / 2 then f
  else if 1 / 2 < r then f + 1
  else if 2 ∣ f then f else f + 1

/-- `round(x, 2)`: round to two decimal places. -/
def round2 (q : ℚ) : ℚ :=
  (roundHalfEven (q * 100) : ℚ) / 100

/-- Python's `int()` conversion: truncation toward zero. -/
def pyInt (q : ℚ) : ℤ :=
  if 0 ≤ q then ⌊q⌋ else -⌊-q⌋

/-- Number of business days among the `n` consecutive day numbers
`s, s+1, …, s+n-1`; recursion-friendly counterpart of
`(bdateRangeList s e).length`. -/
def bizCount (s : Nat) : Nat → Nat
  | 0 => 0
  | n + 1 => bizCount s n + (if isBusinessDay (s + n) then 1 else 0)

/-! ## Sector parameter table (`_get_sector_parameters`) -/

/-- An instrument's static sector profile. -/
structure SectorParams where
  drift : ℚ
  volatility : ℚ
  beta : ℚ
  avg_volume : ℚ
deriving Repr

/-- `_get_sector_parameters`: coarse sector classification with hard-coded
per-sector drift/volatility/beta/volume. -/
def getSectorParameters (symbol : String) : SectorParams :=
  let tech_stocks := ["AAPL", "MSFT", "GOOGL", "GOOG", "AMZN", "NVDA", "META",
    "TSLA", "ORCL", "AMD", "CRM", "ADBE", "INTU", "IBM"]
  let finance_stocks := ["JPM", "BAC", "WFC", "GS", "AXP", "USB", "PNC", "TFC",
    "COF", "SCHW"]
  let healthcare_stocks := ["JNJ", "PFE", "UNH", "ABBV", "TMO", "ABT", "DHR",
    "BMY", "AMGN", "GILD"]
  let energy_stocks := ["XOM", "CVX", "SLB", "OXY", "FCX", "DVN", "APA"]
  if symbol ∈ tech_stocks then
    { drift := 15/100, volatility := 35/100, beta := 12/10, avg_volume := 15000000 }
  else if symbol ∈ finance_stocks then
    { drift := 10/100, volatility := 25/100, beta := 11/10, avg_volume := 8000000 }
  else if symbol ∈ healthcare_stocks then
    { drift := 12/100, volatility := 20/100, beta := 8/10, avg_volume := 6000000 }
  else if symbol ∈ energy_stocks then
    { drift := 8/100, volatility := 40/100, beta := 13/10, avg_volume := 12000000 }
  else
    { drift := 10/100, volatility := 22/100, beta := 1, avg_volume := 5000000 }

/-! ## Single-stock generator (`_generate_single_stock_data`)

The global numpy generator is seeded once per run (`np.random.seed(42)`) and
consumed in a fixed order; it is embedded as explicit draw streams.  Each
stream plays the role of one family of `np.random` calls made for one stock:

* `initialPrice`   — `np.random.uniform(50, 500)`;
* `marketShock i`  — `np.random.normal(0, 0.01)`, day `i`;
* `idioShock i`    — `np.random.normal(daily_drift, daily_vol)`, day `i`;
* `covidShock i`, `inflationShock i` — event-window draws of
  `_add_market_events` (`normal(-0.02, 0.05)` resp. `normal(-0.005, 0.02)`);
* `highOff i`, `lowOff i` — `np.random.uniform(0, daily_range)`, the offsets
  added to/subtracted from the close (their support is `[0, daily_range]`
  with `daily_range = close * uniform(0.005, 0.04) ≥ 0` for nonnegative
  closes; theorems assume nonnegativity of these draws where needed);
* `volFrac i`      — `np.random.uniform(0.5, 2.0)`;
* `logFn`          — models `np.log`, whose analytic value never matters for
  the properties below.
-/

/-- Per-stock draw streams of the seeded global generator. -/
structure StockDraws where
  initialPrice : ℚ
  marketShock : Nat → ℚ
  idioShock : Nat → ℚ
  covidShock : Nat → ℚ
  inflationShock : Nat → ℚ
  highOff : Nat → ℚ
  lowOff : Nat → ℚ
  volFrac : Nat → ℚ
  logFn : ℚ → ℚ

/-- COVID event window of `_add_market_events`: 2020-03-01 … 2020-04-30. -/
def covidLo : Nat := daysFromCivil 2020 3 1

/-- End of the COVID stock-event window. -/
def covidHi : Nat := daysFromCivil 2020 4 30

/-- Inflation event window of `_add_market_events`: 2022-01-01 … 2022-12-31. -/
def inflationLo : Nat := daysFromCivil 2022 1 1

/-- End of the inflation stock-event window. -/
def inflationHi : Nat := daysFromCivil 2022 12 31

/-- `_add_market_events`: extra gaussian perturbation added to the returns of
days falling in the fixed COVID / inflation windows. -/
def marketEventAdj (d : Nat) (covidDraw inflationDraw : ℚ) : ℚ :=
  (if covidLo ≤ d ∧ d ≤ covidHi then covidDraw else 0) +
  (if inflationLo ≤ d ∧ d ≤ inflationHi then inflationDraw else 0)

/-- The combined return series `total_returns` after `_add_market_events`:
`beta * market_shocks + idiosyncratic_shocks` plus the event overlays. -/
def totalReturnAt (beta : ℚ) (dates : List Nat) (o : StockDraws) (i : Nat) : ℚ :=
  beta * o.marketShock i + o.idioShock i +
    marketEventAdj (dates.getD i 0) (o.covidShock i) (o.inflationShock i)

/-- The emitted price series: the source builds
`prices = [initial_price]; for ret in total_returns: prices.append(prices[-1]*(1+ret))`
and then drops the seed entry (`prices = prices[1:]`), so the day-`i` close is
`initial * (1+tr 0) * … * (1+tr i)`. -/
def priceAt (initial : ℚ) (tr : Nat → ℚ) : Nat → ℚ
  | 0 => initial * (1 + tr 0)
  | i + 1 => priceAt initial tr i * (1 + tr (i + 1))

/-- One row of the generated price panel (the columns written by
`_generate_single_stock_data`; the derived indicator columns appended by
`_calculate_technical_indicators` are pure functions of these and are not
repeated in the record). -/
structure StockRecord where
  date : Nat
  symbol : String
  openPrice : ℚ
  high : ℚ
  low : ℚ
  close : ℚ
  volume : ℤ
  ret : ℚ
  logRet : ℚ
deriving Inhabited, Repr

/-- The day-`i` row built in the record loop of `_generate_single_stock_data`. -/
def stockRow (symbol : String) (dates : List Nat) (o : StockDraws) (i : Nat) :
    StockRecord :=
  let params := getSectorParameters symbol
  let tr := totalReturnAt params.beta dates o
  let close := priceAt o.initialPrice tr i
  let high := close + o.highOff i
  let low := close - o.lowOff i
  let openPrice := if 0 < i then priceAt o.initialPrice tr (i - 1) else close
  { date := dates.getD i 0
    symbol := symbol
    openPrice := round2 openPrice
    high := round2 high
    low := round2 low
    close := round2 close
    volume := pyInt (params.avg_volume * (1 + |tr i| * 10) * o.volFrac i)
    ret := tr i
    logRet := o.logFn (close /
      (if 0 < i then priceAt o.initialPrice tr (i - 1) else o.initialPrice)) }

/-- `_generate_single_stock_data`: one row per calendar day. -/
def generateSingleStockData (symbol : String) (dates : List Nat)
    (o : StockDraws) : List StockRecord :=
  (List.range dates.length).map (stockRow symbol dates o)

/-! ## Full-scale generator and pipeline entry -/

/-- The per-stock loop of `_generate_full_scale_stock_data` after the seed:
each symbol consumes the next segment of the global draw stream, here the
family `o i`. -/
def generateFullScalePanel (cal : List Nat) (syms : List String)
    (o : Nat → StockDraws) : List StockRecord :=
  (List.range syms.length).flatMap
    (fun i => generateSingleStockData (syms.getD i "") cal (o i))

/-- A 64-bit linear congruential stream standing in for numpy's seeded
MT19937 (library code outside this repository); the determinism property
depends only on the draws being a pure function of the seed. -/
def lcgStep (s : Nat) : Nat :=
  (6364136223846793005 * s + 1442695040888963407) % (2 ^ 64)

/-- Iterated congruential stream. -/
def lcgIter (seed : Nat) : Nat → Nat
  | 0 => lcgStep seed
  | n + 1 => lcgStep (lcgIter seed n)

/-- A unit-interval draw derived from the stream. -/
def unitDraw (seed k : Nat) : ℚ :=
  (lcgIter seed k : ℚ) / 2 ^ 64

/-- The draw-stream family fixed by a global seed (`np.random.seed(seed)`
followed by consuming the stream in the documented order). -/
def mkDraws (seed : Nat) (stockIdx : Nat) : StockDraws :=
  let base := stockIdx * 1000003
  { initialPrice := 50 + 450 * unitDraw seed base
    marketShock := fun i => (unitDraw seed (base + 9 * i + 1) - 1/2) / 50
    idioShock := fun i => (unitDraw seed (base + 9 * i + 2) - 1/2) / 25
    covidShock := fun i => (unitDraw seed (base + 9 * i + 3) - 1/2) / 10
    inflationShock := fun i => (unitDraw seed (base + 9 * i + 4) - 1/2) / 20
    highOff := fun i => unitDraw seed (base + 9 * i + 5) / 25
    lowOff := fun i => unitDraw seed (base + 9 * i + 6) / 25
    volFrac := fun i => 1/2 + 3/2 * unitDraw seed (base + 9 * i + 7)
    logFn := fun q => q - 1 }

/-- The configuration surface consumed by the collector (class attributes of
`Config`). -/
structure RunConfig where
  startDate : Nat
  endDate : Nat
  expectedTradingDays : Nat
  targetStockCount : Nat
  expectedNewsCount : Nat
deriving Repr

/-- `_generate_full_scale_stock_data` for a configuration: build the
truncated calendar, then generate every symbol.  `targetStockCount` is never
consulted (the source iterates the hard-coded symbol list and uses
`Config.TARGET_STOCK_COUNT` only in log strings). -/
def generateFullScaleStockData (cfg : RunConfig) (syms : List String)
    (o : Nat → StockDraws) : List StockRecord :=
  generateFullScalePanel
    (truncCalendar cfg.startDate cfg.endDate cfg.expectedTradingDays) syms o

/-- Step 1 of `ComprehensiveAnalyzer.run_full_analysis` as an error-aware
phase: the source performs no configuration validation whatsoever before
collecting stock data (it logs, creates directories, and calls the collector
directly), so the phase unconditionally succeeds with the generated panel. -/
def runStockPhase (cfg : RunConfig) (syms : List String)
    (o : Nat → StockDraws) : Except String (List StockRecord) :=
  Except.ok (generateFullScaleStockData cfg syms o)

/-! ## RSI (`_calculate_rsi`)

The RSI computation is the one spot where IEEE float special values carry
the semantics: a zero rolling average loss makes `gain/loss` evaluate to
`inf` (or `nan` when the average gain is zero too), and
`100 - 100/(1 + inf) = 100`.  Float values are therefore embedded as an
exact rational together with the special values; all arithmetic below
follows the IEEE rules on these values (ℚ has a single zero, matching the
positive zeros produced by the rolling means). -/

/-- A float value: finite (exact rational), infinities, or `nan`. -/
inductive PFloat where
  | nan : PFloat
  | inf : PFloat
  | ninf : PFloat
  | fin : ℚ → PFloat
deriving DecidableEq, Repr

/-- IEEE negation. -/
def PFloat.neg : PFloat → PFloat
  | .nan => .nan
  | .inf => .ninf
  | .ninf => .inf
  | .fin q => .fin (-q)

/-- IEEE addition. -/
def PFloat.add : PFloat → PFloat → PFloat
  | .nan, _ => .nan
  | _, .nan => .nan
  | .inf, .ninf => .nan
  | .ninf, .inf => .nan
  | .inf, _ => .inf
  | _, .inf => .inf
  | .ninf, _ => .ninf
  | _, .ninf => .ninf
  | .fin a, .fin b => .fin (a + b)

/-- IEEE subtraction. -/
def PFloat.sub (a b : PFloat) : PFloat :=
  PFloat.add a (PFloat.neg b)

/-- IEEE division (single-zero variant: dividing a nonzero finite value by
zero gives the infinity carrying the dividend's sign). -/
def PFloat.div : PFloat → PFloat → PFloat
  | .nan, _ => .nan
  | _, .nan => .nan
  | .inf, .inf => .nan
  | .inf, .ninf => .nan
  | .ninf, .inf => .nan
  | .ninf, .ninf => .nan
  | .inf, .fin b => if b < 0 then .ninf else .inf
  | .ninf, .fin b => if b < 0 then .inf else .ninf
  | .fin _, .inf => .fin 0
  | .fin _, .ninf => .fin 0
  | .fin a, .fin b =>
      if b = 0 then (if a = 0 then .nan else if 0 < a then .inf else .ninf)
      else .fin (a / b)

/-- `delta.where(delta > 0, 0)` on `delta = prices.diff()`: the day-`i`
positive price delta (`diff` yields `NaN` at row 0, which `where` replaces
by 0 since `NaN > 0` is false). -/
def diffGain (prices : List ℚ) (i : Nat) : ℚ :=
  if i = 0 then 0
  else
    let d := prices.getD i 0 - prices.getD (i - 1) 0
    if 0 < d then d else 0

/-- `-delta.where(delta < 0, 0)`: the day-`i` positive magnitude of a
negative price delta. -/
def diffLoss (prices : List ℚ) (i : Nat) : ℚ :=
  if i = 0 then 0
  else
    let d := prices.getD i 0 - prices.getD (i - 1) 0
    if d < 0 then -d else 0

/-- The trailing window `f (i+1-w), …, f i` read by `rolling(window=w)`. -/
def rollingWindow (f : Nat → ℚ) (w i : Nat) : List ℚ :=
  (List.range w).map (fun k => f (i + 1 - w + k))

/-- `rolling(window=w).mean()` at row `i`: `NaN` until the window is full. -/
def rollingMean (f : Nat → ℚ) (w i : Nat) : PFloat :=
  if w ≤ i + 1 then PFloat.fin ((rollingWindow f w i).sum / w) else PFloat.nan

/-- `_calculate_rsi` at row `i`:
`100 - 100/(1 + gain.rolling(w).mean() / loss.rolling(w).mean())`. -/
def calculateRsi (prices : List ℚ) (window i : Nat) : PFloat :=
  let g := rollingMean (diffGain prices) window i
  let l := rollingMean (diffLoss prices) window i
  PFloat.sub (PFloat.fin 100)
    (PFloat.div (PFloat.fin 100) (PFloat.add (PFloat.fin 1) (PFloat.div g l)))

/-! ## Sentiment scoring (`AdvancedSentimentAnalyzer.analyze_news_sentiment`) -/

/-- The lexicon keyword score: `(pos - neg)/(pos + neg)` when any keyword
matched, else 0. -/
def keywordSentiment (posCount negCount : Nat) : ℚ :=
  if 0 < posCount + negCount then
    ((posCount : ℚ) - (negCount : ℚ)) / ((posCount : ℚ) + (negCount : ℚ))
  else 0

/-- The combined sentiment score: `0.6 * textblob + 0.4 * keyword` when the
general-purpose model is available, else the keyword score alone.
`textblobPolarity` is the polarity reported by the external model. -/
def combinedSentiment (useTextblob : Bool) (textblobPolarity : ℚ)
    (posCount negCount : Nat) : ℚ :=
  if useTextblob then
    6/10 * textblobPolarity + 4/10 * keywordSentiment posCount negCount
  else keywordSentiment posCount negCount

/-! ## Macro series generator (`_update_macro_values`) -/

/-- One month's gaussian shock vector (`np.random.normal(0, volatility)` per
indicator, with the hard-coded per-indicator volatilities). -/
structure MacroShocks where
  gdp : ℚ
  inflation : ℚ
  unemployment : ℚ
  fedFunds : ℚ
  vix : ℚ
  dollar : ℚ
  oil : ℚ
  treasury : ℚ

/-- The 8-indicator macro value vector. -/
structure MacroState where
  gdp : ℚ
  inflation : ℚ
  unemployment : ℚ
  fedFunds : ℚ
  vix : ℚ
  dollar : ℚ
  oil : ℚ
  treasury : ℚ
deriving Repr

/-- `np.clip(x, lo, hi)`. -/
def clip (x lo hi : ℚ) : ℚ :=
  min hi (max x lo)

/-- The final hard-clamp block of `_update_macro_values`: every indicator is
clipped to its declared band. -/
def clampMacro (c : MacroState) : MacroState :=
  { gdp := clip c.gdp (-5) 8
    inflation := clip c.inflation (-1) 10
    unemployment := clip c.unemployment 2 15
    fedFunds := clip c.fedFunds 0 6
    vix := clip c.vix 10 80
    dollar := clip c.dollar 80 120
    oil := clip c.oil 20 150
    treasury := clip c.treasury (1/2) 6 }

/-- COVID macro-event window: 2020-03-01 … 2020-12-31. -/
def macroCovidLo : Nat := daysFromCivil 2020 3 1

/-- End of the COVID macro-event window. -/
def macroCovidHi : Nat := daysFromCivil 2020 12 31

/-- Inflation macro-event window: 2022-01-01 … 2023-12-31. -/
def macroInflLo : Nat := daysFromCivil 2022 1 1

/-- End of the inflation macro-event window. -/
def macroInflHi : Nat := daysFromCivil 2023 12 31

/-- `_update_macro_values`: add the month's gaussian shock to every
indicator, apply the deterministic event adjustments, then hard-clamp every
indicator to its declared band.  `expFn k` stands for the transcendental
`np.exp(-k/3)` factor in the COVID unemployment bump (its value is
irrelevant to the clamp invariant). -/
def updateMacroValues (v : MacroState) (date index : Nat) (sh : MacroShocks)
    (expFn : Nat → ℚ) : MacroState :=
  let a : MacroState :=
    { gdp := v.gdp + sh.gdp
      inflation := v.inflation + sh.inflation
      unemployment := v.unemployment + sh.unemployment
      fedFunds := v.fedFunds + sh.fedFunds
      vix := v.vix + sh.vix
      dollar := v.dollar + sh.dollar
      oil := v.oil + sh.oil
      treasury := v.treasury + sh.treasury }
  let b : MacroState :=
    if macroCovidLo ≤ date ∧ date ≤ macroCovidHi then
      { a with
        unemployment := a.unemployment + 2 * expFn (index % 12)
        gdp := a.gdp - 3/2
        vix := a.vix + 10
        fedFunds := max (1/10) (a.fedFunds - 1/2) }
    else a
  let c : MacroState :=
    if macroInflLo ≤ date ∧ date ≤ macroInflHi then
      { b with
        inflation := min 9 (b.inflation + 3/10)
        fedFunds := min (11/2) (b.fedFunds + 2/10)
        treasury := min 5 (b.treasury + 15/100) }
    else b
  clampMacro c

/-- Initial macro values of `collect_macro_economic_data`. -/
def macroInitialValues : MacroState :=
  { gdp := 5/2, inflation := 2, unemployment := 5, fedFunds := 3/2,
    vix := 18, dollar := 95, oil := 70, treasury := 5/2 }

/-- The monthly loop of `collect_macro_economic_data` from month index `i0`:
each month the state is updated in place and the updated vector is recorded.
`sh i` is the month-`i` shock vector, `ex` the exp-decay model. -/
def macroRecordsAux (s : MacroState) (dates : List Nat) (i0 : Nat)
    (sh : Nat → MacroShocks) (ex : Nat → ℚ) : List MacroState :=
  match dates with
  | [] => []
  | d :: ds =>
      let s' := updateMacroValues s d i0 (sh i0) ex
      s' :: macroRecordsAux s' ds (i0 + 1) sh ex

/-- `collect_macro_economic_data`: the emitted monthly records. -/
def collectMacroEconomicData (dates : List Nat) (sh : Nat → MacroShocks)
    (ex : Nat → ℚ) : List MacroState :=
  macroRecordsAux macroInitialValues dates 0 sh ex

/-- The declared hard bands of the 8 macro indicators (the `np.clip` bounds
of `_update_macro_values`). -/
def inRangeMacro (s : MacroState) : Prop :=
  -5 ≤ s.gdp ∧ s.gdp ≤ 8 ∧
  -1 ≤ s.inflation ∧ s.inflation ≤ 10 ∧
  2 ≤ s.unemployment ∧ s.unemployment ≤ 15 ∧
  0 ≤ s.fedFunds ∧ s.fedFunds ≤ 6 ∧
  10 ≤ s.vix ∧ s.vix ≤ 80 ∧
  80 ≤ s.dollar ∧ s.dollar ≤ 120 ∧
  20 ≤ s.oil ∧ s.oil ≤ 150 ∧
  1/2 ≤ s.treasury ∧ s.treasury ≤ 6

/-! ## News corpus sizing (`collect_news_sentiment_data`)

Only the corpus-size control flow is load-bearing for the stated property;
the per-article template/company/source/time choices are abstracted into the
draw `pick i` producing the article record wholesale (the records' content
is never inspected by the sizing logic). -/

/-- The per-day generation loop: day `i` of the calendar contributes
`max(1, int(np.random.poisson(daily_news_count)))` articles, `counts i`
being the Poisson draw. -/
def initialNewsCorpus {α : Type} (days : List Nat) (counts : Nat → Nat)
    (pick : Nat → Nat → α) : List α :=
  (List.range days.length).flatMap
    (fun i => (List.range (max 1 (counts i))).map (pick i))

/-- `_generate_additional_news`: exactly `count` extra records
(`for i in range(count)` appends one record per iteration). -/
def genAdditionalNews {α : Type} (pick : Nat → α) (count : Nat) : List α :=
  (List.range count).map pick

/-- The top-up loop `while len(news_df) < target: concat(additional)`.  Each
iteration appends exactly the deficit, so the body runs at most once and the
loop is equivalent to this conditional. -/
def newsTopUp {α : Type} (target : Nat) (pick : Nat → α) (l : List α) :
    List α :=
  if l.length < target then l ++ genAdditionalNews pick (target - l.length)
  else l

/-- An index-driven reordering of a list (same length); stands for the
seeded random permutation underlying `DataFrame.sample(n, random_state=42)`. -/
def permuteByIdx {α : Type} [Inhabited α] (σ : Nat → Nat) (l : List α) :
    List α :=
  (List.range l.length).map (fun i => l.getD (σ i % l.length) default)

/-- `if len(news_df) > target: news_df = news_df.sample(n=target,
random_state=42)`: keep `target` rows of a random reordering. -/
def newsDownsample {α : Type} [Inhabited α] (target : Nat) (σ : Nat → Nat)
    (l : List α) : List α :=
  if target < l.length then (permuteByIdx σ l).take target else l

/-- The final corpus produced by `collect_news_sentiment_data` after the
top-up/down-sample steps. -/
def finalNewsCorpus {α : Type} [Inhabited α] (target : Nat) (pick : Nat → α)
    (σ : Nat → Nat) (l : List α) : List α :=
  newsDownsample target σ (newsTopUp target pick l)

/-! ## Concrete draw streams used by witnesses and counterexamples -/

/-- Quiet draw streams: zero shocks and offsets, unit volume fraction. -/
def quietDraws : StockDraws :=
  { initialPrice := 100
    marketShock := fun _ => 0
    idioShock := fun _ => 0
    covidShock := fun _ => 0
    inflationShock := fun _ => 0
    highOff := fun _ => 0
    lowOff := fun _ => 0
    volFrac := fun _ => 1
    logFn := fun _ => 0 }

/-- Draws realizing a +100% first-day return (`idioShock 0 = 1`). -/
def jumpDraws : StockDraws :=
  { quietDraws with idioShock := fun _ => 1 }

/-- Draws realizing a −50% move on day 1, with zero high/low offsets. -/
def dropDraws : StockDraws :=
  { quietDraws with idioShock := fun i => if i = 0 then 0 else -(1/2) }

/-- A configuration with a non-positive stock-count target (everything else
as configured in the source). -/
def cfgZeroStockTarget : RunConfig :=
  { startDate := daysFromCivil 2024 1 2
    endDate := daysFromCivil 2024 1 2
    expectedTradingDays := 2518
    targetStockCount := 0
    expectedNewsCount := 15000 }

/-- A strictly increasing 15-observation close series. -/
def increasingCloses : List ℚ :=
  [1, 2, 3, 4, 5, 6, 7, 8, 9, 10, 11, 12, 13, 14, 15]

/-! # Helper lemmas -/

theorem roundHalfEven_lb (q : ℚ) : q - 1/2 ≤ (roundHalfEven q : ℚ) := by
  unfold roundHalfEven
  simp only []
  have h1 : (⌊q⌋ : ℚ) ≤ q := Int.floor_le q
  have h2 : q < ⌊q⌋ + 1 := Int.lt_floor_add_one q
  split_ifs with ha hb hc <;> push_cast <;> linarith

theorem roundHalfEven_ub (q : ℚ) : (roundHalfEven q : ℚ) ≤ q + 1/2 := by
  unfold roundHalfEven
  simp only []
  have h1 : (⌊q⌋ : ℚ) ≤ q := Int.floor_le q
  have h2 : q < ⌊q⌋ + 1 := Int.lt_floor_add_one q
  split_ifs with ha hb hc <;> push_cast <;> linarith

theorem roundHalfEven_mono {a b : ℚ} (h : a ≤ b) :
    roundHalfEven a ≤ roundHalfEven b := by
  by_contra hlt
  push_neg at hlt
  have h1 : (roundHalfEven b : ℚ) + 1 ≤ (roundHalfEven a : ℚ) := by
    exact_mod_cast Int.add_one_le_iff.mpr hlt
  have h2 := roundHalfEven_ub a
  have h3 := roundHalfEven_lb b
  have hab : a = b := by linarith
  subst hab
  omega

theorem round2_mono {a b : ℚ} (h : a ≤ b) : round2 a ≤ round2 b := by
  unfold round2
  have hm := roundHalfEven_mono (by linarith : a * 100 ≤ b * 100)
  have hc : (roundHalfEven (a * 100) : ℚ) ≤ (roundHalfEven (b * 100) : ℚ) := by
    exact_mod_cast hm
  linarith

theorem roundHalfEven_intCast (z : ℤ) : roundHalfEven (z : ℚ) = z := by
  unfold roundHalfEven
  simp only [Int.floor_intCast]
  rw [if_pos (by norm_num)]

theorem round2_intCast (z : ℤ) : round2 (z : ℚ) = z := by
  unfold round2
  rw [show ((z : ℚ) * 100) = ((z * 100 : ℤ) : ℚ) by push_cast; ring,
    roundHalfEven_intCast]
  push_cast
  field_simp

theorem pyInt_pos {q : ℚ} (h : 1 ≤ q) : 0 < pyInt q := by
  unfold pyInt
  rw [if_pos (by linarith)]
  have h1 : (1 : ℤ) ≤ ⌊q⌋ := Int.le_floor.mpr (by exact_mod_cast h)
  omega

theorem rangeMap_getD {α : Type} (f : Nat → α) (n i : Nat) (d : α)
    (h : i < n) : ((List.range n).map f).getD i d = f i := by
  rw [List.getD_eq_getElem _ _ (by simpa using h)]
  simp

theorem bdateRangeList_length (s e : Nat) :
    (bdateRangeList s e).length = bizCount s (e + 1 - s) := by
  unfold bdateRangeList
  generalize e + 1 - s = n
  induction n with
  | zero => simp [bizCount]
  | succ n ih =>
      rw [List.range_succ, List.map_append, List.filter_append,
        List.length_append, ih, bizCount]
      simp [List.filter]
      split <;> simp_all

theorem isBusinessDay_mod (m k : Nat) :
    isBusinessDay (m + k) = isBusinessDay (m % 7 + k) := by
  unfold isBusinessDay
  have h : (m + k) % 7 = (m % 7 + k) % 7 := by omega
  rw [h]

theorem bizCount_add_seven (s n : Nat) :
    bizCount s (n + 7) = bizCount s n + 5 := by
  show bizCount s (n+1+1+1+1+1+1+1) = bizCount s n + 5
  simp only [bizCount]
  have hb : isBusinessDay (s + n) = isBusinessDay ((s + n) % 7 + 0) := by
    unfold isBusinessDay
    have h : (s + n) % 7 = ((s + n) % 7 + 0) % 7 := by omega
    rw [← h]
  have h1 := isBusinessDay_mod (s + n) 1
  have h2 := isBusinessDay_mod (s + n) 2
  have h3 := isBusinessDay_mod (s + n) 3
  have h4 := isBusinessDay_mod (s + n) 4
  have h5 := isBusinessDay_mod (s + n) 5
  have h6 := isBusinessDay_mod (s + n) 6
  have e1 : s + (n + 1) = s + n + 1 := by omega
  have e2 : s + (n + 2) = s + n + 2 := by omega
  have e3 : s + (n + 3) = s + n + 3 := by omega
  have e4 : s + (n + 4) = s + n + 4 := by omega
  have e5 : s + (n + 5) = s + n + 5 := by omega
  have e6 : s + (n + 6) = s + n + 6 := by omega
  rw [e1, e2, e3, e4, e5, e6, hb, h1, h2, h3, h4, h5, h6]
  have hr7 : (s + n) % 7 < 7 := by omega
  set r := (s + n) % 7 with hrdef
  clear_value r
  interval_cases r <;> norm_num [isBusinessDay]

theorem bizCount_add_mul_seven (s n m : Nat) :
    bizCount s (n + 7 * m) = bizCount s n + 5 * m := by
  induction m with
  | zero => simp
  | succ m ih =>
      have h : n + 7 * (m + 1) = (n + 7 * m) + 7 := by ring
      rw [h, bizCount_add_seven, ih]
      ring

theorem clip_le_hi (x lo hi : ℚ) : clip x lo hi ≤ hi :=
  min_le_left _ _

theorem lo_le_clip {lo hi : ℚ} (x : ℚ) (h : lo ≤ hi) : lo ≤ clip x lo hi :=
  le_min h (le_max_right _ _)

theorem clampMacro_inRange (c : MacroState) : inRangeMacro (clampMacro c) := by
  unfold inRangeMacro clampMacro
  exact ⟨lo_le_clip _ (by norm_num), clip_le_hi _ _ _,
    lo_le_clip _ (by norm_num), clip_le_hi _ _ _,
    lo_le_clip _ (by norm_num), clip_le_hi _ _ _,
    lo_le_clip _ (by norm_num), clip_le_hi _ _ _,
    lo_le_clip _ (by norm_num), clip_le_hi _ _ _,
    lo_le_clip _ (by norm_num), clip_le_hi _ _ _,
    lo_le_clip _ (by norm_num), clip_le_hi _ _ _,
    lo_le_clip _ (by norm_num), clip_le_hi _ _ _⟩

theorem updateMacro_inRange (v : MacroState) (date index : Nat)
    (sh : MacroShocks) (ex : Nat → ℚ) :
    inRangeMacro (updateMacroValues v date index sh ex) := by
  unfold updateMacroValues
  exact clampMacro_inRange _

theorem avgVolume_ge (symbol : String) :
    (5000000 : ℚ) ≤ (getSectorParameters symbol).avg_volume := by
  unfold getSectorParameters
  simp only []
  split_ifs <;> norm_num

theorem diffGain_nonneg (prices : List ℚ) (i : Nat) : 0 ≤ diffGain prices i := by
  unfold diffGain
  simp only []
  split_ifs with h1 h2
  · exact le_refl 0
  · linarith
  · exact le_refl 0

theorem mono_getD (prices : List ℚ) (hmono : List.Chain' (· < ·) prices)
    (j : Nat) (hj : j + 1 < prices.length) :
    prices.getD j 0 < prices.getD (j + 1) 0 := by
  rw [List.getD_eq_getElem _ _ (by omega : j < prices.length),
    List.getD_eq_getElem _ _ hj]
  have h := List.chain'_iff_get.mp hmono j (by omega)
  simpa [List.get_eq_getElem] using h

theorem mono_getD' (prices : List ℚ) (hmono : List.Chain' (· < ·) prices)
    (j : Nat) (h1 : 1 ≤ j) (hj : j < prices.length) :
    prices.getD (j - 1) 0 < prices.getD j 0 := by
  have h := mono_getD prices hmono (j - 1) (by omega)
  rwa [show j - 1 + 1 = j by omega] at h

theorem diffLoss_zero_of_mono (prices : List ℚ)
    (hmono : List.Chain' (· < ·) prices) (j : Nat) (hj : j < prices.length) :
    diffLoss prices j = 0 := by
  unfold diffLoss
  simp only []
  split_ifs with h1 h2
  · rfl
  · exfalso
    have h := mono_getD' prices hmono j (by omega) hj
    linarith
  · rfl

theorem diffGain_pos_of_mono (prices : List ℚ)
    (hmono : List.Chain' (· < ·) prices) (j : Nat) (h1 : 1 ≤ j)
    (hj : j < prices.length) : 0 < diffGain prices j := by
  unfold diffGain
  simp only []
  have hd := mono_getD' prices hmono j h1 hj
  rw [if_neg (by omega), if_pos (by linarith)]
  linarith

theorem rsi_shape (G : ℚ) (hG : 0 < G) :
    PFloat.sub (PFloat.fin 100)
      (PFloat.div (PFloat.fin 100)
        (PFloat.add (PFloat.fin 1) (PFloat.div (PFloat.fin G) (PFloat.fin 0)))) =
    PFloat.fin 100 := by
  have h1 : PFloat.div (PFloat.fin G) (PFloat.fin 0) = PFloat.inf := by
    simp [PFloat.div, hG, hG.ne']
  rw [h1]
  show PFloat.sub (PFloat.fin 100) (PFloat.div (PFloat.fin 100) PFloat.inf)
    = PFloat.fin 100
  simp [PFloat.add, PFloat.div, PFloat.sub, PFloat.neg]

theorem permuteByIdx_length {α : Type} [Inhabited α] (σ : Nat → Nat)
    (l : List α) : (permuteByIdx σ l).length = l.length := by
  simp [permuteByIdx]

theorem newsTopUp_length {α : Type} (target : Nat) (pick : Nat → α)
    (l : List α) : (newsTopUp target pick l).length = max l.length target := by
  unfold newsTopUp genAdditionalNews
  split_ifs with h
  · simp only [List.length_append, List.length_map, List.length_range]
    omega
  · omega

theorem newsDownsample_length {α : Type} [Inhabited α] (target : Nat)
    (σ : Nat → Nat) (l : List α) :
    (newsDownsample target σ l).length = min l.length target := by
  unfold newsDownsample
  split_ifs with h
  · rw [List.length_take, permuteByIdx_length]
    omega
  · omega

/-! # Claim theorems -/

/-- C1.  Determinism: for a fixed global seed, two runs of the synthetic
stock-data generator over the same calendar (and the fixed sector table of
`_get_sector_parameters`) produce identical price panels — in particular
every field of every row (Date, Symbol, rounded Open/High/Low/Close, Volume,
Return, Log_Return) agrees between the two runs. -/
theorem generator_deterministic (s1 s2 : Nat) (h : s1 = s2)
    (cal : List Nat) (syms : List String) :
    generateFullScalePanel cal syms (mkDraws s1)
      = generateFullScalePanel cal syms (mkDraws s2) ∧
    ∀ i r1 r2,
      (generateFullScalePanel cal syms (mkDraws s1)).getD i default = r1 →
      (generateFullScalePanel cal syms (mkDraws s2)).getD i default = r2 →
      r1.date = r2.date ∧ r1.symbol = r2.symbol ∧
      r1.openPrice = r2.openPrice ∧ r1.high = r2.high ∧ r1.low = r2.low ∧
      r1.close = r2.close ∧ r1.volume = r2.volume ∧ r1.ret = r2.ret ∧
      r1.logRet = r2.logRet := by
  subst h
  refine ⟨rfl, ?_⟩
  intro i r1 r2 h1 h2
  rw [h1] at h2
  subst h2
  exact ⟨rfl, rfl, rfl, rfl, rfl, rfl, rfl, rfl, rfl⟩

/-- Witness for C1 at seed 42, a one-day calendar and one symbol. -/
theorem generator_deterministic_witness :
    generateFullScalePanel [0] ["AAPL"] (mkDraws 42)
      = generateFullScalePanel [0] ["AAPL"] (mkDraws 42) :=
  (generator_deterministic 42 42 rfl [0] ["AAPL"]).1

/-- C2 counterexample.  The source drops the seed entry of the price list
(`prices = prices[1:]`), so the first day's close is
`initial_price * (1 + total_return[0])`, not the drawn initial price: with
`initial_price = 100` and a +100% day-0 return the day-0 close is 200. -/
theorem price_path_day0_counterexample :
    jumpDraws.initialPrice = 100 ∧
    ((generateSingleStockData "X" [0] jumpDraws).getD 0 default).close = 200 ∧
    (200 : ℚ) ≠ 100 := by
  refine ⟨rfl, ?_, by norm_num⟩
  unfold generateSingleStockData
  rw [show [0].length = 1 from rfl, rangeMap_getD _ _ _ _ (by norm_num)]
  show round2 (priceAt jumpDraws.initialPrice
    (totalReturnAt (getSectorParameters "X").beta [0] jumpDraws) 0) = 200
  have htr : totalReturnAt (getSectorParameters "X").beta [0] jumpDraws 0 = 1 := by
    unfold totalReturnAt marketEventAdj
    simp [jumpDraws, quietDraws]
  rw [priceAt, htr, show jumpDraws.initialPrice = 100 from rfl,
    show (100 : ℚ) * (1 + 1) = ((200 : ℤ) : ℚ) by norm_num, round2_intCast]
  norm_num

/-- C2 amended.  The emitted price path satisfies
`price[0] = initial_price * (1 + total_return[0])` and
`price[t] = price[t-1] * (1 + total_return[t])` for `t ≥ 1`; the day-`i`
close of the generated rows is the rounded value of this path (so the first
day's close is the rounded `initial * (1 + total_return[0])`, not the drawn
initial price). -/
theorem price_path_recurrence_amended (initial : ℚ) (tr : Nat → ℚ) (t : Nat)
    (ht : 1 ≤ t) (symbol : String) (dates : List Nat) (o : StockDraws)
    (i : Nat) (hi : i < dates.length) :
    priceAt initial tr 0 = initial * (1 + tr 0) ∧
    priceAt initial tr t = priceAt initial tr (t - 1) * (1 + tr t) ∧
    ((generateSingleStockData symbol dates o).getD i default).close
      = round2 (priceAt o.initialPrice
          (totalReturnAt (getSectorParameters symbol).beta dates o) i) := by
  refine ⟨rfl, ?_, ?_⟩
  · obtain ⟨u, rfl⟩ : ∃ u, t = u + 1 := ⟨t - 1, by omega⟩
    simp [priceAt]
  · unfold generateSingleStockData
    rw [rangeMap_getD _ _ _ _ hi]
    rfl

/-- Witness for C2 amended at a concrete path and one generated row. -/
theorem price_path_recurrence_amended_witness :
    priceAt 100 (fun _ => 0) 0 = 100 * (1 + (fun _ => (0:ℚ)) 0) ∧
    priceAt 100 (fun _ => 0) 1
      = priceAt 100 (fun _ => 0) (1 - 1) * (1 + (fun _ => (0:ℚ)) 1) ∧
    ((generateSingleStockData "AAPL" [0] quietDraws).getD 0 default).close
      = round2 (priceAt quietDraws.initialPrice
          (totalReturnAt (getSectorParameters "AAPL").beta [0] quietDraws) 0) :=
  price_path_recurrence_amended 100 (fun _ => 0) 1 (by norm_num) "AAPL" [0]
    quietDraws 0 (by norm_num)

/-- C3 counterexample.  With start = end = 2015-01-05 (a Monday) the
business-day sequence has a single entry and no padding occurs: the
generated calendar has 1 trading day, not the 2518 target. -/
theorem calendar_padding_counterexample :
    (truncCalendar (daysFromCivil 2015 1 5) (daysFromCivil 2015 1 5)
      Config.EXPECTED_TRADING_DAYS).length = 1 ∧
    (1 : Nat) ≠ Config.EXPECTED_TRADING_DAYS := by
  constructor
  · decide
  · decide

/-- C3 amended.  The generated calendar is only ever truncated, never
padded: its length is `min` of the business-day count and the target, so it
equals the target exactly iff the range supplies at least that many business
days.  For the configured bounds 2015-01-01 … 2024-12-31 there are 2609
business days, so the generated count is exactly 2518 there. -/
theorem calendar_truncation_amended :
    (∀ s e expected : Nat,
      (truncCalendar s e expected).length
        = min (bdateRangeList s e).length expected) ∧
    (bdateRangeList Config.START_DATE Config.END_DATE).length = 2609 ∧
    (truncCalendar Config.START_DATE Config.END_DATE
      Config.EXPECTED_TRADING_DAYS).length = Config.EXPECTED_TRADING_DAYS := by
  have hgen : ∀ s e expected : Nat, (truncCalendar s e expected).length
      = min (bdateRangeList s e).length expected := by
    intro s e expected
    unfold truncCalendar
    simp only []
    split_ifs with h
    · rw [List.length_take]
      omega
    · omega
  have h2609 : (bdateRangeList Config.START_DATE Config.END_DATE).length = 2609 := by
    rw [bdateRangeList_length]
    have hspan : Config.END_DATE + 1 - Config.START_DATE = 3653 := by decide
    rw [hspan, show (3653 : Nat) = 6 + 7 * 521 by norm_num,
      bizCount_add_mul_seven, show bizCount Config.START_DATE 6 = 4 by decide]
  refine ⟨hgen, h2609, ?_⟩
  rw [hgen, h2609]
  decide

/-- C4 counterexample.  A configuration with a non-positive stock-count
target does not abort: the target is never consulted, the stock phase
succeeds, and data is generated (here one row for one symbol over the
one-business-day calendar 2024-01-02). -/
theorem config_no_abort_counterexample :
    cfgZeroStockTarget.targetStockCount = 0 ∧
    (runStockPhase cfgZeroStockTarget ["AAPL"] (mkDraws 42)).isOk = true ∧
    (generateFullScaleStockData cfgZeroStockTarget ["AAPL"]
      (mkDraws 42)).length = 1 := by
  refine ⟨rfl, rfl, ?_⟩
  decide

/-- C4 amended.  `run_full_analysis` performs no configuration validation at
all: for every configuration (including zero-length calendars and
non-positive targets) the stock phase proceeds straight to generation and
returns the generated panel; no fatal pre-generation abort path exists (a
runtime exception later in the run is caught and logged, not re-raised). -/
theorem pipeline_no_validation_amended (cfg : RunConfig) (syms : List String)
    (o : Nat → StockDraws) :
    runStockPhase cfg syms o
      = Except.ok (generateFullScaleStockData cfg syms o) ∧
    (runStockPhase cfg syms o).isOk = true :=
  ⟨rfl, rfl⟩

/-- C5.  On a strictly increasing close series of at least 15 observations,
the 14-day RSI equals exactly 100 at every row with a full window (the zero
average loss makes `gain/loss` evaluate to `inf` and `100 - 100/(1+inf)` to
100, the maximally overbought boundary, with no error raised); and in
general any zero average loss at a full-window row yields 100 or NaN, never
an error. -/
theorem rsi_overbought_boundary (prices : List ℚ)
    (hmono : List.Chain' (· < ·) prices) (hlen : 15 ≤ prices.length) :
    (∀ i, 13 ≤ i → i < prices.length → calculateRsi prices 14 i = PFloat.fin 100) ∧
    (∀ qs : List ℚ, ∀ i, 13 ≤ i →
      rollingMean (diffLoss qs) 14 i = PFloat.fin 0 →
      calculateRsi qs 14 i = PFloat.fin 100 ∨ calculateRsi qs 14 i = PFloat.nan) := by
  constructor
  · intro i h13 hilen
    have hw : 14 ≤ i + 1 := by omega
    have hloss : rollingMean (diffLoss prices) 14 i = PFloat.fin 0 := by
      unfold rollingMean
      rw [if_pos hw]
      congr 1
      have hz : (rollingWindow (diffLoss prices) 14 i).sum = 0 := by
        apply List.sum_eq_zero
        intro x hx
        unfold rollingWindow at hx
        simp only [List.mem_map, List.mem_range] at hx
        obtain ⟨k, hk, rfl⟩ := hx
        exact diffLoss_zero_of_mono prices hmono _ (by omega)
      rw [hz]
      simp
    have hnn : ∀ x ∈ rollingWindow (diffGain prices) 14 i, 0 ≤ x := by
      intro x hx
      unfold rollingWindow at hx
      simp only [List.mem_map, List.mem_range] at hx
      obtain ⟨k, hk, rfl⟩ := hx
      exact diffGain_nonneg prices _
    have hmem : diffGain prices i ∈ rollingWindow (diffGain prices) 14 i := by
      unfold rollingWindow
      refine List.mem_map.mpr ⟨13, List.mem_range.mpr (by omega), ?_⟩
      congr 1
      omega
    have hpos : 0 < diffGain prices i :=
      diffGain_pos_of_mono prices hmono i (by omega) hilen
    have hle := List.single_le_sum hnn _ hmem
    have hsum : 0 < (rollingWindow (diffGain prices) 14 i).sum := by linarith
    have hgain : rollingMean (diffGain prices) 14 i
        = PFloat.fin ((rollingWindow (diffGain prices) 14 i).sum / 14) := by
      unfold rollingMean
      rw [if_pos hw]
      norm_num
    unfold calculateRsi
    rw [hgain, hloss]
    exact rsi_shape _ (by positivity)
  · intro qs i h13 hloss
    have hw : 14 ≤ i + 1 := by omega
    have hGnn : 0 ≤ (rollingWindow (diffGain qs) 14 i).sum / (14 : ℚ) := by
      apply div_nonneg _ (by norm_num)
      apply List.sum_nonneg
      intro x hx
      unfold rollingWindow at hx
      simp only [List.mem_map, List.mem_range] at hx
      obtain ⟨k, hk, rfl⟩ := hx
      exact diffGain_nonneg qs _
    have hG : rollingMean (diffGain qs) 14 i
        = PFloat.fin ((rollingWindow (diffGain qs) 14 i).sum / 14) := by
      unfold rollingMean
      rw [if_pos hw]
      norm_num
    unfold calculateRsi
    rw [hG, hloss]
    rcases eq_or_lt_of_le hGnn with heq | hpos
    · right
      rw [← heq]
      decide
    · left
      exact rsi_shape _ hpos

/-- Witness for C5 at the 15-observation strictly increasing series
`1, 2, …, 15`, checked at the first full-window row 13. -/
theorem rsi_overbought_boundary_witness :
    calculateRsi increasingCloses 14 13 = PFloat.fin 100 :=
  (rsi_overbought_boundary increasingCloses
    (by norm_num [increasingCloses, List.chain'_cons])
    (by norm_num [increasingCloses])).1 13
    (by norm_num) (by norm_num [increasingCloses])

/-- C6 counterexample.  The combined score is an unclamped blend: a model
polarity of 2 together with one positive keyword and no negative keyword
gives `0.6*2 + 0.4*1 = 1.6 > 1`, so the combined score is not bounded by
[-1, 1] "regardless of model output". -/
theorem combined_sentiment_unbounded_counterexample :
    1 < combinedSentiment true 2 1 0 := by
  unfold combinedSentiment keywordSentiment
  norm_num

/-- C6 amended.  The lexicon keyword score always lies in [-1, 1]; the
combined score lies in [-1, 1] whenever the model polarity lies in [-1, 1]
(as TextBlob's polarity does), and unconditionally when the model is
unavailable — but an out-of-range model polarity is blended unclamped. -/
theorem sentiment_bound_amended :
    (∀ p n : Nat, |keywordSentiment p n| ≤ 1) ∧
    (∀ (p n : Nat) (x : ℚ), |x| ≤ 1 → |combinedSentiment true x p n| ≤ 1) ∧
    (∀ (p n : Nat) (x : ℚ), |combinedSentiment false x p n| ≤ 1) := by
  have hkw : ∀ p n : Nat, |keywordSentiment p n| ≤ 1 := by
    intro p n
    unfold keywordSentiment
    split_ifs with h
    · have hp : (0 : ℚ) ≤ p := Nat.cast_nonneg p
      have hn : (0 : ℚ) ≤ n := Nat.cast_nonneg n
      have hc : (0 : ℚ) < (p : ℚ) + n := by exact_mod_cast h
      rw [abs_div, abs_of_pos hc, div_le_one hc, abs_le]
      constructor <;> linarith
    · norm_num
  refine ⟨hkw, ?_, ?_⟩
  · intro p n x hx
    unfold combinedSentiment
    rw [if_pos rfl]
    have hk := abs_le.mp (hkw p n)
    have hx' := abs_le.mp hx
    rw [abs_le]
    constructor <;> linarith
  · intro p n x
    unfold combinedSentiment
    rw [if_neg (by simp)]
    exact hkw p n

/-- Witness for C6 amended at a concrete in-range polarity. -/
theorem sentiment_bound_amended_witness :
    |combinedSentiment true (1/2) 3 1| ≤ 1 :=
  sentiment_bound_amended.2.1 3 1 (1/2)
    (by rw [abs_le]; constructor <;> norm_num)

/-- C7.  Clamp invariant: every macro indicator emitted by the monthly
update state machine lies in its declared [min, max] band (the clamp is the
last step of every update, so the invariant holds for every reachable state
from any start state, any gaussian shocks, and any event adjustments). -/
theorem macro_clamp_invariant :
    (∀ (v : MacroState) (date index : Nat) (sh : MacroShocks) (ex : Nat → ℚ),
      inRangeMacro (updateMacroValues v date index sh ex)) ∧
    (∀ (s0 : MacroState) (dates : List Nat) (i0 : Nat)
      (sh : Nat → MacroShocks) (ex : Nat → ℚ) (r : MacroState),
      r ∈ macroRecordsAux s0 dates i0 sh ex → inRangeMacro r) := by
  refine ⟨updateMacro_inRange, ?_⟩
  intro s0 dates
  induction dates generalizing s0 with
  | nil => intro i0 sh ex r hr; simp [macroRecordsAux] at hr
  | cons d ds ih =>
      intro i0 sh ex r hr
      unfold macroRecordsAux at hr
      rcases List.mem_cons.mp hr with rfl | hr
      · exact updateMacro_inRange _ _ _ _ _
      · exact ih _ _ _ _ _ hr

/-- Witness for C7: the record emitted after one COVID-window month from the
configured initial values. -/
theorem macro_clamp_invariant_witness :
    inRangeMacro (updateMacroValues macroInitialValues macroCovidLo 0
      ⟨0, 0, 0, 0, 0, 0, 0, 0⟩ (fun _ => 1)) :=
  macro_clamp_invariant.2 macroInitialValues [macroCovidLo] 0
    (fun _ => ⟨0, 0, 0, 0, 0, 0, 0, 0⟩) (fun _ => 1) _
    (by simp [macroRecordsAux])

/-- C8.  News-count exactness: whatever the per-day Poisson draws produce,
the final corpus after the top-up / down-sample steps has exactly
`EXPECTED_NEWS_COUNT = 15000` records. -/
theorem news_count_exact (α : Type) [Inhabited α] (days : List Nat)
    (counts : Nat → Nat) (pick0 : Nat → Nat → α) (pick : Nat → α)
    (σ : Nat → Nat) :
    (finalNewsCorpus Config.EXPECTED_NEWS_COUNT pick σ
      (initialNewsCorpus days counts pick0)).length
      = Config.EXPECTED_NEWS_COUNT := by
  unfold finalNewsCorpus
  rw [newsDownsample_length, newsTopUp_length]
  omega

/-- C9.  Row-shape invariants of the single-stock generator: exactly one row
per calendar day; the rounded Open of row 0 equals its rounded Close; the
rounded Open of row `i > 0` equals the rounded Close of row `i-1`; and every
Volume is strictly positive (every sector profile has average volume
≥ 5,000,000 and the volume multiplier draw is at least 0.5, its uniform
lower bound). -/
theorem single_stock_rows (symbol : String) (dates : List Nat)
    (o : StockDraws) (hvol : ∀ i, (1 : ℚ)/2 ≤ o.volFrac i) :
    (generateSingleStockData symbol dates o).length = dates.length ∧
    (0 < dates.length →
      ((generateSingleStockData symbol dates o).getD 0 default).openPrice
        = ((generateSingleStockData symbol dates o).getD 0 default).close) ∧
    (∀ i, 0 < i → i < dates.length →
      ((generateSingleStockData symbol dates o).getD i default).openPrice
        = ((generateSingleStockData symbol dates o).getD (i - 1) default).close) ∧
    (∀ i, i < dates.length →
      0 < ((generateSingleStockData symbol dates o).getD i default).volume) := by
  refine ⟨by simp [generateSingleStockData], ?_, ?_, ?_⟩
  · intro h0
    unfold generateSingleStockData
    rw [rangeMap_getD _ _ _ _ h0]
    rfl
  · intro i h0 hi
    unfold generateSingleStockData
    rw [rangeMap_getD _ _ _ _ hi, rangeMap_getD _ _ _ _ (by omega)]
    show round2 (if 0 < i then _ else _) = _
    rw [if_pos h0]
    rfl
  · intro i hi
    unfold generateSingleStockData
    rw [rangeMap_getD _ _ _ _ hi]
    show 0 < pyInt ((getSectorParameters symbol).avg_volume *
      (1 + |totalReturnAt (getSectorParameters symbol).beta dates o i| * 10) *
      o.volFrac i)
    apply pyInt_pos
    have ha := avgVolume_ge symbol
    have hb : (1 : ℚ) ≤ 1 +
        |totalReturnAt (getSectorParameters symbol).beta dates o i| * 10 := by
      have habs := abs_nonneg
        (totalReturnAt (getSectorParameters symbol).beta dates o i)
      linarith
    have hc := hvol i
    have h2 : (5000000 : ℚ) ≤ (getSectorParameters symbol).avg_volume *
        (1 + |totalReturnAt (getSectorParameters symbol).beta dates o i| * 10) := by
      nlinarith
    nlinarith

/-- Witness for C9: two rows are generated over a two-day calendar. -/
theorem single_stock_rows_witness :
    (generateSingleStockData "AAPL" [0, 1] quietDraws).length = 2 :=
  (single_stock_rows "AAPL" [0, 1] quietDraws
    (fun i => by norm_num [quietDraws])).1

/-- C10.  High/Low ordering: in every generated row the rounded High is at
least the rounded Close and the rounded Low is at most the rounded Close
(High/Low are the close plus/minus a draw from [0, daily_range], and the
two-decimal rounding is monotone); by contrast Open obeys no such ordering —
in the concrete falling-price run `dropDraws` the rounded Open of row 1
strictly exceeds its rounded High. -/
theorem high_low_ordering (symbol : String) (dates : List Nat)
    (o : StockDraws) (hh : ∀ i, 0 ≤ o.highOff i) (hl : ∀ i, 0 ≤ o.lowOff i) :
    (∀ i, i < dates.length →
      ((generateSingleStockData symbol dates o).getD i default).close
        ≤ ((generateSingleStockData symbol dates o).getD i default).high ∧
      ((generateSingleStockData symbol dates o).getD i default).low
        ≤ ((generateSingleStockData symbol dates o).getD i default).close) ∧
    ((generateSingleStockData "X" [0, 1] dropDraws).getD 1 default).high
      < ((generateSingleStockData "X" [0, 1] dropDraws).getD 1 default).openPrice := by
  constructor
  · intro i hi
    unfold generateSingleStockData
    rw [rangeMap_getD _ _ _ _ hi]
    constructor
    · show round2 _ ≤ round2 _
      apply round2_mono
      have := hh i
      linarith
    · show round2 _ ≤ round2 _
      apply round2_mono
      have := hl i
      linarith
  · unfold generateSingleStockData
    rw [show [0, 1].length = 2 from rfl, rangeMap_getD _ _ _ _ (by norm_num)]
    have hX : (getSectorParameters "X").beta = 1 := rfl
    have htr0 : totalReturnAt (getSectorParameters "X").beta [0, 1] dropDraws 0
        = 0 := by
      unfold totalReturnAt marketEventAdj
      simp [dropDraws, quietDraws]
    have htr1 : totalReturnAt (getSectorParameters "X").beta [0, 1] dropDraws 1
        = -(1/2) := by
      unfold totalReturnAt marketEventAdj
      simp [dropDraws, quietDraws]
    show round2 (priceAt dropDraws.initialPrice _ 1 + dropDraws.highOff 1)
      < round2 (priceAt dropDraws.initialPrice _ (1 - 1))
    have hp0 : priceAt dropDraws.initialPrice
        (totalReturnAt (getSectorParameters "X").beta [0, 1] dropDraws) 0
        = 100 := by
      rw [priceAt, htr0, show dropDraws.initialPrice = 100 from rfl]
      norm_num
    have hp1 : priceAt dropDraws.initialPrice
        (totalReturnAt (getSectorParameters "X").beta [0, 1] dropDraws) 1
        = 50 := by
      rw [show (1 : Nat) = 0 + 1 from rfl, priceAt, hp0, htr1]
      norm_num
    rw [hp1, hp0, show dropDraws.highOff 1 = 0 from rfl,
      show (50 : ℚ) + 0 = ((50 : ℤ) : ℚ) by norm_num, round2_intCast,
      show (100 : ℚ) = ((100 : ℤ) : ℚ) by norm_num, round2_intCast]
    norm_num

/-- Witness for C10 at quiet draws: row 0's rounded Low is at most its
rounded Close. -/
theorem high_low_ordering_witness :
    ((generateSingleStockData "AAPL" [0] quietDraws).getD 0 default).low
      ≤ ((generateSingleStockData "AAPL" [0] quietDraws).getD 0 default).close :=
  ((high_low_ordering "AAPL" [0] quietDraws (fun _ => le_refl 0)
    (fun _ => le_refl 0)).1 0 (by norm_num)).2
